import Mathlib

set_option maxRecDepth 1000000

deriving instance DecidableEq for Except

/-!
Shallow embedding of scripts/fetch_matches.py (Fagerborg BK terminliste
fetcher).  Network and filesystem effects are made explicit: pages arrive as
already-fetched structures, logo downloading is a function parameter, clock
reads are parameters, and Python exceptions are modelled with Except.
Machine-level caveats of the model are noted next to each definition.
-/

namespace FetchMatches

/-! ### String utilities -/

/-- Whitespace test modelling the Python regex class backslash-s and str.strip
(ASCII subset; the pages involved contain no exotic Unicode whitespace). -/
def isWs (c : Char) : Bool :=
  c = ' ' || c = '\t' || c = '\n' || c = '\r' || c = '\x0b' || c = '\x0c'

/-- Drop leading and trailing whitespace, modelling Python str.strip(). -/
def stripChars (cs : List Char) : List Char :=
  ((cs.dropWhile isWs).reverse.dropWhile isWs).reverse

/-- Collapse consecutive spaces to a single space (helper for normalize_space). -/
def squeezeSpaces : List Char → List Char
  | [] => []
  | [c] => [c]
  | a :: b :: t =>
    if a = ' ' && b = ' ' then squeezeSpaces (b :: t)
    else a :: squeezeSpaces (b :: t)

/-- Model of normalize_space: re.sub(r"backslash-s+", " ", s.strip()).
Each whitespace char is mapped to a space, runs are collapsed, ends trimmed. -/
def normalize_space (s : String) : String :=
  String.mk (squeezeSpaces (stripChars (s.toList.map fun c => if isWs c then ' ' else c)))

/-- ASCII lowercase of one character, as Python str.lower() acts on the ASCII
header and keyword strings this program compares (the Norwegian letters in
team names never reach a lowercased comparison that matters). -/
def lowerChar (c : Char) : Char :=
  if 65 ≤ c.toNat && c.toNat ≤ 90 then Char.ofNat (c.toNat + 32) else c

def toLowerStr (s : String) : String :=
  String.mk (s.toList.map lowerChar)

/-- ASCII uppercase of one character (Python str.upper() on status strings). -/
def upperChar (c : Char) : Char :=
  if 97 ≤ c.toNat && c.toNat ≤ 122 then Char.ofNat (c.toNat - 32) else c

def toUpperStr (s : String) : String :=
  String.mk (s.toList.map upperChar)

/-- Python separator.join over a list of strings. -/
def joinWith (sep : String) : List String → String
  | [] => ""
  | h :: t => t.foldl (fun acc s => acc ++ sep ++ s) h

/-- Prefix test on the underlying character lists (Python str.startswith). -/
def startsWith (pat s : String) : Bool :=
  pat.toList.isPrefixOf s.toList

/-- Lexicographic code point comparison of character lists: the order Python
uses when comparing or sorting strings. -/
def lexLe : List Char → List Char → Bool
  | [], _ => true
  | _ :: _, [] => false
  | a :: as, b :: bs =>
    if a.toNat < b.toNat then true
    else if b.toNat < a.toNat then false
    else lexLe as bs

def strLe (a b : String) : Bool :=
  lexLe a.toList b.toList

/-- Substring containment, modelling the Python expression needle in hay. -/
def containsSubList (needle : List Char) : List Char → Bool
  | [] => needle.isEmpty
  | c :: t => needle.isPrefixOf (c :: t) || containsSubList needle t

def containsSub (needle hay : String) : Bool :=
  containsSubList needle.toList hay.toList

/-- Model of Python str.isdigit for ASCII content: nonempty and all digits. -/
def isDigitStr (s : String) : Bool :=
  !s.toList.isEmpty && s.toList.all Char.isDigit

/-- Model of Python str.replace(pat, rep) for a fixed pattern, all occurrences,
left to right, non-overlapping.  (For the empty pattern Python inserts rep
between every character; the program only replaces nonempty patterns.) -/
def replaceAllAux (pat rep : List Char) : Nat → List Char → List Char
  | 0, l => l
  | _ + 1, [] => []
  | fuel + 1, c :: t =>
    if pat.isPrefixOf (c :: t) then rep ++ replaceAllAux pat rep fuel (t.drop (pat.length - 1))
    else c :: replaceAllAux pat rep fuel t

def replaceAllList (pat rep l : List Char) : List Char :=
  replaceAllAux pat rep l.length l

def replaceAll (pat rep s : String) : String :=
  String.mk (replaceAllList pat.toList rep.toList s.toList)

/-- Numeric value of a list of ASCII digit characters (Python int()). -/
def natOfDigits (ds : List Char) : Nat :=
  ds.foldl (fun a c => a * 10 + (c.toNat - 48)) 0

/-- Decimal digits of a natural number, zero padded to the given width. -/
def padNum (width n : Nat) : String :=
  let s := Nat.repr n
  String.mk (List.replicate (width - s.length) '0') ++ s

/-! ### Time and date cell parsing -/

/-- Anchored regex caret (backslash-d{1,2}):(backslash-d{2}) dollar on a char
list: exactly one or two digits, a colon, exactly two digits. -/
def timeShape : List Char → Option (Nat × Nat)
  | [h1, ':', m1, m2] =>
    if h1.isDigit && m1.isDigit && m2.isDigit then
      some (natOfDigits [h1], natOfDigits [m1, m2])
    else none
  | [h1, h2, ':', m1, m2] =>
    if h1.isDigit && h2.isDigit && m1.isDigit && m2.isDigit then
      some (natOfDigits [h1, h2], natOfDigits [m1, m2])
    else none
  | _ => none

/-- Model of parse_time_cell: normalize, turn every dot into a colon, match the
anchored HH:MM pattern; the pair (2, 59) is the fotball.no placeholder for an
unset kickoff time and is mapped to midnight with the unknown flag set. -/
def parse_time_cell (raw : String) : Option Nat × Option Nat × Bool :=
  let r := (normalize_space raw).toList.map fun c => if c = '.' then ':' else c
  match timeShape r with
  | none => (none, none, true)
  | some (hh, mm) =>
    if hh = 2 && mm = 59 then (some 0, some 0, true)
    else (some hh, some mm, false)

/-- Anchored regex for dd.mm.yyyy; returns (day, month, year) like the groups
of the Python pattern. -/
def dateShape : List Char → Option (Nat × Nat × Nat)
  | [d1, d2, '.', m1, m2, '.', y1, y2, y3, y4] =>
    if d1.isDigit && d2.isDigit && m1.isDigit && m2.isDigit &&
        y1.isDigit && y2.isDigit && y3.isDigit && y4.isDigit then
      some (natOfDigits [d1, d2], natOfDigits [m1, m2], natOfDigits [y1, y2, y3, y4])
    else none
  | _ => none

def isLeapYear (y : Nat) : Bool :=
  y % 4 = 0 && (y % 100 ≠ 0 || y % 400 = 0)

def daysInMonth (y mo : Nat) : Nat :=
  if mo = 1 ∨ mo = 3 ∨ mo = 5 ∨ mo = 7 ∨ mo = 8 ∨ mo = 10 ∨ mo = 12 then 31
  else if mo = 4 ∨ mo = 6 ∨ mo = 9 ∨ mo = 11 then 30
  else if mo = 2 then (if isLeapYear y then 29 else 28)
  else 0

/-- Domain of the Python datetime constructor for a date (MINYEAR 1 to
MAXYEAR 9999, valid month, valid day of month). -/
def validDate (y mo d : Nat) : Bool :=
  1 ≤ y && y ≤ 9999 && 1 ≤ mo && mo ≤ 12 && 1 ≤ d && d ≤ daysInMonth y mo

/-- Model of parse_date_cell.  A string that does not match the dd.mm.yyyy
shape yields ok none (Python returns None); a shape match naming an impossible
calendar date yields error (the datetime constructor raises ValueError, which
parse_date_cell does not catch); a valid date yields the (year, month, day)
triple. -/
def parse_date_cell (raw : String) : Except Unit (Option (Nat × Nat × Nat)) :=
  match dateShape (normalize_space raw).toList with
  | none => .ok none
  | some (d, mo, y) =>
    if validDate y mo d then .ok (some (y, mo, d)) else .error ()

/-! ### Europe/Oslo to UTC conversion

The program interprets wall-clock values in ZoneInfo("Europe/Oslo") and
converts to UTC.  The model implements the EU daylight-saving rule in force
since 1996 (UTC+1, switching to UTC+2 between 01:00 UTC on the last Sunday of
March and 01:00 UTC on the last Sunday of October), with the PEP 495 fold=0
resolution the Python code relies on for ambiguous and nonexistent local
times: in local wall-clock terms the +2 offset applies from (last Sunday of
March, 03:00) inclusive to (last Sunday of October, 03:00) exclusive.
Historical transitions before 1996 are not modelled. -/

/-- Days in all years before year y of the proleptic Gregorian calendar. -/
def daysBeforeYear (y : Nat) : Nat :=
  let n := y - 1
  n * 365 + n / 4 - n / 100 + n / 400

/-- Days in the months of year y strictly before month mo. -/
def daysBeforeMonth (y mo : Nat) : Nat :=
  (List.range (mo - 1)).foldl (fun a i => a + daysInMonth y (i + 1)) 0

/-- Proleptic Gregorian ordinal: 0001-01-01 is day 1 (as in Python). -/
def toOrdinal (y mo d : Nat) : Nat :=
  daysBeforeYear y + daysBeforeMonth y mo + d

/-- Day of week with Monday = 0 and Sunday = 6 (Python date.weekday()). -/
def weekday (y mo d : Nat) : Nat :=
  (toOrdinal y mo d - 1) % 7

/-- Day number of the last Sunday of a 31-day month. -/
def lastSunday (y mo : Nat) : Nat :=
  31 - ((weekday y mo 31 + 1) % 7)

/-- Whether the +2 (CEST) offset applies to the given Oslo wall-clock value,
per the rule documented above. -/
def osloDst (y mo d hh mi : Nat) : Bool :=
  let key := mo * 1000000 + d * 10000 + (hh * 60 + mi)
  let spring := 3 * 1000000 + lastSunday y 3 * 10000 + 180
  let fall := 10 * 1000000 + lastSunday y 10 * 10000 + 180
  spring ≤ key && key < fall

/-- Previous calendar day. -/
def prevDate (y mo d : Nat) : Nat × Nat × Nat :=
  if d > 1 then (y, mo, d - 1)
  else if mo > 1 then (y, mo - 1, daysInMonth y (mo - 1))
  else (y - 1, 12, 31)

/-- Subtract the UTC offset from an Oslo wall-clock value, borrowing at most
one day.  (For local instants in the first hour of 0001-01-01 Python would
raise OverflowError from astimezone; that unreachable-in-practice corner is
not modelled and simply wraps to year 0 here.) -/
def osloToUtcParts (y mo d hh mi : Nat) : Nat × Nat × Nat × Nat × Nat :=
  let total := hh * 60 + mi
  let off := if osloDst y mo d hh mi then 120 else 60
  if off ≤ total then (y, mo, d, (total - off) / 60, (total - off) % 60)
  else
    let p := prevDate y mo d
    let t2 := total + 1440 - off
    (p.1, p.2.1, p.2.2, t2 / 60, t2 % 60)

/-- Model of to_utc_iso on the (always naive, seconds zero) datetimes the
program builds: attach Europe/Oslo, convert to UTC, format ISO-8601 with the
+00:00 suffix replaced by Z. -/
def to_utc_iso (y mo d hh mi : Nat) : String :=
  let u := osloToUtcParts y mo d hh mi
  padNum 4 u.1 ++ "-" ++ padNum 2 u.2.1 ++ "-" ++ padNum 2 u.2.2.1 ++ "T" ++
    padNum 2 u.2.2.2.1 ++ ":" ++ padNum 2 u.2.2.2.2 ++ ":00Z"

/-! ### SHA-1

The fallback matchId and the logo cache key use hashlib.sha1 hexdigests of
UTF-8 encoded strings.  Words are naturals reduced modulo 2 to the 32. -/

/-- UTF-8 bytes of one code point. -/
def utf8Bytes (c : Nat) : List Nat :=
  if c < 0x80 then [c]
  else if c < 0x800 then [0xC0 + c / 64, 0x80 + c % 64]
  else if c < 0x10000 then [0xE0 + c / 4096, 0x80 + (c / 64) % 64, 0x80 + c % 64]
  else [0xF0 + c / 262144, 0x80 + (c / 4096) % 64, 0x80 + (c / 64) % 64, 0x80 + c % 64]

def strBytes (s : String) : List Nat :=
  s.toList.flatMap fun c => utf8Bytes c.toNat

def rotl32 (n x : Nat) : Nat :=
  ((x <<< n) ||| (x >>> (32 - n))) % 4294967296

/-- Big-endian 8-byte encoding of a (here always small) bit length. -/
def lenBytes64 (n : Nat) : List Nat :=
  [n >>> 56 % 256, n >>> 48 % 256, n >>> 40 % 256, n >>> 32 % 256,
   n >>> 24 % 256, n >>> 16 % 256, n >>> 8 % 256, n % 256]

/-- SHA-1 padding: 0x80, zeros to 56 mod 64, then the bit length. -/
def sha1Pad (msg : List Nat) : List Nat :=
  let l := msg.length
  msg ++ [0x80] ++ List.replicate ((119 - l % 64) % 64) 0 ++ lenBytes64 (8 * l)

/-- Group bytes into big-endian 32-bit words. -/
def bytesToWords : List Nat → List Nat
  | a :: b :: c :: d :: t => (a * 16777216 + b * 65536 + c * 256 + d) :: bytesToWords t
  | _ => []

/-- Split a byte list into 64-byte blocks (fuel keeps the recursion
structural so that concrete instances reduce in the kernel). -/
def chunks64Aux : Nat → List Nat → List (List Nat)
  | 0, _ => []
  | _ + 1, [] => []
  | fuel + 1, c :: t => (c :: t).take 64 :: chunks64Aux fuel ((c :: t).drop 64)

def chunks64 (l : List Nat) : List (List Nat) :=
  chunks64Aux l.length l

/-- Extend the 16 message words by n further schedule words. -/
def sha1Expand : Nat → List Nat → List Nat
  | 0, w => w
  | n + 1, w =>
    let i := w.length
    let nw := rotl32 1 ((w.getD (i - 3) 0) ^^^ (w.getD (i - 8) 0) ^^^
      (w.getD (i - 14) 0) ^^^ (w.getD (i - 16) 0))
    sha1Expand n (w ++ [nw])

/-- One SHA-1 round, driven by the (index, schedule word) pair. -/
def sha1Round (st : Nat × Nat × Nat × Nat × Nat) (iw : Nat × Nat) :
    Nat × Nat × Nat × Nat × Nat :=
  let (a, b, c, d, e) := st
  let (i, w) := iw
  let f :=
    if i < 20 then (b &&& c) ||| ((4294967295 ^^^ b) &&& d)
    else if i < 40 then b ^^^ c ^^^ d
    else if i < 60 then (b &&& c) ||| (b &&& d) ||| (c &&& d)
    else b ^^^ c ^^^ d
  let k :=
    if i < 20 then 0x5A827999
    else if i < 40 then 0x6ED9EBA1
    else if i < 60 then 0x8F1BBCDC
    else 0xCA62C1D6
  let temp := (rotl32 5 a + f + e + k + w) % 4294967296
  (temp, a, rotl32 30 b, c, d)

/-- Process one 64-byte block. -/
def sha1Block (h : Nat × Nat × Nat × Nat × Nat) (block : List Nat) :
    Nat × Nat × Nat × Nat × Nat :=
  let w80 := sha1Expand 64 (bytesToWords block)
  let (a, b, c, d, e) := w80.enum.foldl sha1Round h
  ((h.1 + a) % 4294967296, (h.2.1 + b) % 4294967296, (h.2.2.1 + c) % 4294967296,
    (h.2.2.2.1 + d) % 4294967296, (h.2.2.2.2 + e) % 4294967296)

def hexDigit (n : Nat) : Char :=
  if n < 10 then Char.ofNat (48 + n) else Char.ofNat (87 + n)

/-- Lowercase hexadecimal of a 32-bit word, 8 digits. -/
def hex32 (n : Nat) : List Char :=
  [hexDigit (n >>> 28 % 16), hexDigit (n >>> 24 % 16), hexDigit (n >>> 20 % 16),
   hexDigit (n >>> 16 % 16), hexDigit (n >>> 12 % 16), hexDigit (n >>> 8 % 16),
   hexDigit (n >>> 4 % 16), hexDigit (n % 16)]

/-- Full hexdigest of hashlib.sha1 over the UTF-8 bytes of a string. -/
def sha1Hex (s : String) : String :=
  let blocks := chunks64 (sha1Pad (strBytes s))
  let h := blocks.foldl sha1Block (0x67452301, 0xEFCDAB89, 0x98BADCFE, 0x10325476, 0xC3D2E1F0)
  String.mk (hex32 h.1 ++ hex32 h.2.1 ++ hex32 h.2.2.1 ++ hex32 h.2.2.2.1 ++ hex32 h.2.2.2.2)

/-- The [:10] truncation of the hexdigest used as the fallback matchId. -/
def sha1Hex10 (s : String) : String :=
  String.mk ((sha1Hex s).toList.take 10)

/-! ### URL helpers -/

/-- Model of urljoin(BASE, href) for the reference shapes the site emits:
absolute URLs, protocol-relative, root-relative, and bare relative paths.
Dot-segment, query-only and fragment-only references are not modelled. -/
def urljoinBase (href : String) : String :=
  if startsWith "http://" href || startsWith "https://" href then href
  else if startsWith "//" href then "https:" ++ href
  else if startsWith "/" href then "https://www.fotball.no" ++ href
  else "https://www.fotball.no/" ++ href

/-- Text before the first occurrence of the marker character. -/
def takeUntilChar (m : Char) (cs : List Char) : List Char :=
  cs.takeWhile fun c => c ≠ m

/-- Text after the first occurrence of the marker character (empty if absent). -/
def afterChar (m : Char) (cs : List Char) : List Char :=
  match cs.dropWhile (fun c => c ≠ m) with
  | [] => []
  | _ :: t => t

/-- Split on a separator character (Python str.split), no empty-input special
case needed here. -/
def splitOnChar (m : Char) : List Char → List (List Char)
  | [] => [[]]
  | c :: t =>
    if c = m then [] :: splitOnChar m t
    else match splitOnChar m t with
      | [] => [[c]]
      | h :: r => (c :: h) :: r

/-- Model of parse_qs(urlparse(u).query).get("fiksId", [None])[0]: drop the
fragment, take the query after the first question mark, split pairs on the
ampersand, split each pair at its first equals sign, drop blank values, return
the first value keyed fiksId.  Percent and plus decoding are not modelled; the
fotball.no URLs involved contain neither. -/
def match_id_from_url (u : String) : Option String :=
  let query := afterChar '?' (takeUntilChar '#' u.toList)
  let pairs := (splitOnChar '&' query).filterMap fun p =>
    if p.contains '=' then
      let k := takeUntilChar '=' p
      let v := afterChar '=' p
      if v.isEmpty then none else some (String.mk k, String.mk v)
    else none
  (pairs.filter fun kv => kv.1 = "fiksId").head?.map Prod.snd

/-! ### Score and status derivation -/

/-- Attempt the score regex (backslash-d+, optional spaces, hyphen or en dash,
optional spaces, backslash-d+) anchored at the head of the list.  Greedy
matching needs no backtracking here because digits, whitespace and the dashes
are disjoint character classes. -/
def scoreAt (cs : List Char) : Option (Nat × Nat) :=
  let d1 := cs.takeWhile Char.isDigit
  if d1.isEmpty then none
  else
    match (cs.dropWhile Char.isDigit).dropWhile isWs with
    | c :: r3 =>
      if c = '-' || c = '–' then
        let d2 := (r3.dropWhile isWs).takeWhile Char.isDigit
        if d2.isEmpty then none else some (natOfDigits d1, natOfDigits d2)
      else none
    | [] => none

/-- Leftmost occurrence, modelling re.search: try every start position in
order. -/
def searchScore : List Char → Option (Nat × Nat)
  | [] => none
  | c :: t =>
    match scoreAt (c :: t) with
    | some p => some p
    | none => searchScore t

/-- Status and goal derivation block of parse_matches_from_page (lines
344-359): a parsed score wins and yields FINISHED; keyword checks run only
when no score matched. -/
def derive_status_goals (res_raw : String) : Option Nat × Option Nat × String :=
  match searchScore res_raw.toList with
  | some (h, a) => (some h, some a, "FINISHED")
  | none =>
    if containsSub "avly" (toLowerStr res_raw) then (none, none, "CANCELLED")
    else if containsSub "utsatt" (toLowerStr res_raw) ||
        containsSub "omberam" (toLowerStr res_raw) then (none, none, "POSTPONED")
    else (none, none, "SCHEDULED")

/-! ### HTML page model

Pages are modelled at the level BeautifulSoup delivers them to the parser:
cell texts (get_text with a space separator and strip=True), the first img
src of each cell, the first anchor href of each row, header cell texts, and
the first h1 text. -/

structure CellHtml where
  text : String
  img : Option String
deriving DecidableEq, Repr

structure RowHtml where
  cells : List CellHtml
  href : Option String
deriving DecidableEq, Repr

structure TableHtml where
  ths : List String
  trs : List RowHtml
deriving DecidableEq, Repr

structure PageHtml where
  h1 : Option String
  tables : List TableHtml
deriving DecidableEq, Repr

structure Match where
  matchId : String
  kickoff : String
  homeTeam : String
  awayTeam : String
  homeLogoUrl : String
  awayLogoUrl : String
  venue : String
  status : String
  homeGoals : Option Nat
  awayGoals : Option Nat
  tournament : String
  round : String
  matchUrl : String
deriving DecidableEq, Repr

/-- Model of find_matches_table: the first table whose lowercased header
texts, joined with spaces, contain both hjemmelag and bortelag. -/
def find_matches_table (tables : List TableHtml) : Option TableHtml :=
  tables.find? fun t =>
    let joined := joinWith " " (t.ths.map toLowerStr)
    !t.ths.isEmpty && containsSub "hjemmelag" joined && containsSub "bortelag" joined

/-- Last index of a key in a list, modelling a Python dict comprehension over
enumerate (later entries overwrite earlier ones). -/
def lastIdxOf (xs : List String) (k : String) : Option Nat :=
  (xs.enum.filter fun p => p.2 = k).getLast?.map Prod.fst

/-- Model of the col helper: first candidate name present in the header
index. -/
def colLookup (ths : List String) : List String → Option Nat
  | [] => none
  | n :: rest =>
    match lastIdxOf ths (toLowerStr n) with
    | some i => some i
    | none => colLookup ths rest

/-- All column indices the parser resolves from a header row. -/
structure Cols where
  iRound : Option Nat
  iDate : Option Nat
  iTime : Option Nat
  iHome : Option Nat
  iRes : Option Nat
  iAway : Option Nat
  iVenue : Option Nat
deriving DecidableEq, Repr

def colsOf (rawThs : List String) : Cols :=
  let ths := rawThs.map fun s => toLowerStr (normalize_space s)
  { iRound := colLookup ths ["runde"]
    iDate := colLookup ths ["dato"]
    iTime := colLookup ths ["tid"]
    iHome := colLookup ths ["hjemmelag"]
    iRes := colLookup ths ["resultat", "resultat "]
    iAway := colLookup ths ["bortelag"]
    iVenue := colLookup ths ["bane", "stadion"] }

/-- Model of the logo_from_cell closure: the img src of the addressed cell,
stripped, resolved against the base URL, with the shared country placeholder
and missing sources mapped to the local placeholder asset. -/
def logo_from_cell (cells : List CellHtml) : Option Nat → String
  | none => "assets/logos/placeholder.svg"
  | some j =>
    if cells.length ≤ j then "assets/logos/placeholder.svg"
    else
      match (cells.getD j ⟨"", none⟩).img with
      | none => "assets/logos/placeholder.svg"
      | some src0 =>
        let src := String.mk (stripChars src0.toList)
        if src = "" || "/gfx/country.svg".toList.isSuffixOf src.toList then
          "assets/logos/placeholder.svg"
        else urljoinBase src

/-- The usable detail-page link of a row (lines 378-384): the first anchor
href resolved against the base URL, accepted only when it points into
/fotballdata/kamp/ and carries a fiksId parameter. -/
def usableLink (row : RowHtml) : Option String :=
  match row.href with
  | none => none
  | some href =>
    let full := urljoinBase href
    if containsSub "/fotballdata/kamp/" full && containsSub "fiksId=" full then some full
    else none

/-- The (match_url, match_id) pair before the fallback: the accepted link URL
(or the empty string) and the fiksId its query names (if any). -/
def rowLink (row : RowHtml) : String × Option String :=
  match usableLink row with
  | some full => (full, match_id_from_url full)
  | none => ("", none)

/-- Final matchId of a row (lines 386-391): the fiksId of the usable link, or
the first 10 hex digits of the sha1 of kickoff, home, away and the scope
fiksId joined with pipes. -/
def rowMatchId (row : RowHtml) (kickoff home away : String) (fiks_id : Nat) : String :=
  match (rowLink row).2 with
  | some fid => fid
  | none => sha1Hex10 (kickoff ++ "|" ++ home ++ "|" ++ away ++ "|" ++ Nat.repr fiks_id)

/-- Dedup key of a built record, the tuple (matchId, kickoff, homeTeam,
awayTeam); in the source the key and the record are built from the same four
local variables, so the key is exactly these fields of the record. -/
def keyOf (m : Match) : String × String × String × String :=
  (m.matchId, m.kickoff, m.homeTeam, m.awayTeam)

/-- Per-row body of the parse loop (lines 309-437 before the dedup check).
Returns ok none when the row is skipped by a continue, error when the Python
body raises (invalid calendar date, or an hour or minute the datetime
constructor rejects), and ok (some m) for a built record.  The logo download
side effect is the function parameter dl (source URL, team name to local
path). -/
def buildRow (cols : Cols) (fiks_id : Nat) (page_title : String)
    (dl : String → String → String) (row : RowHtml) : Except Unit (Option Match) :=
  if row.cells.isEmpty then .ok none
  else
    let cells_text := row.cells.map fun c => normalize_space c.text
    match cols.iDate, cols.iHome, cols.iAway with
    | some i_date, some i_home, some i_away =>
      if cells_text.length ≤ i_date ∨ cells_text.length ≤ i_home ∨
          cells_text.length ≤ i_away then .ok none
      else
        let date_raw := cells_text.getD i_date ""
        let home := cells_text.getD i_home ""
        let away := cells_text.getD i_away ""
        if date_raw = "" ∨ home = "" ∨ away = "" then .ok none
        else
          match parse_date_cell date_raw with
          | .error e => .error e
          | .ok none => .ok none
          | .ok (some d) =>
            let time_raw :=
              match cols.iTime with
              | some i => if i < cells_text.length then cells_text.getD i "" else ""
              | none => ""
            let tc := parse_time_cell time_raw
            let hhv := tc.1.getD 0
            let mmv := tc.2.1.getD 0
            if 23 < hhv ∨ 59 < mmv then .error ()
            else
              let kickoff_iso := to_utc_iso d.1 d.2.1 d.2.2 hhv mmv
              let res_raw0 :=
                match cols.iRes with
                | some i => if i < cells_text.length then cells_text.getD i "" else "-"
                | none => "-"
              let res_raw := normalize_space res_raw0
              let g := derive_status_goals res_raw
              let venue := normalize_space
                (match cols.iVenue with
                 | some i => if i < cells_text.length then cells_text.getD i "" else ""
                 | none => "")
              let rnd :=
                match cols.iRound with
                | some i =>
                  if i < cells_text.length then
                    let r := normalize_space (cells_text.getD i "")
                    if r ≠ "" && isDigitStr r then "Runde " ++ r else r
                  else ""
                | none => ""
              let match_id := rowMatchId row kickoff_iso home away fiks_id
              let tournament :=
                String.mk (stripChars (replaceAll " - Norges Fotballforbund" "" page_title).toList)
              .ok (some
                { matchId := match_id
                  kickoff := kickoff_iso
                  homeTeam := home
                  awayTeam := away
                  homeLogoUrl := String.mk ((dl (logo_from_cell row.cells cols.iHome) home).toList.map
                    fun c => if c = '\\' then '/' else c)
                  awayLogoUrl := String.mk ((dl (logo_from_cell row.cells cols.iAway) away).toList.map
                    fun c => if c = '\\' then '/' else c)
                  venue := venue
                  status := g.2.2
                  homeGoals := g.1
                  awayGoals := g.2.1
                  tournament := tournament
                  round := rnd
                  matchUrl := (rowLink row).1 })
    | _, _, _ => .ok none

/-- Row loop with the seen-set dedup on (matchId, kickoff, homeTeam,
awayTeam). -/
def parseRows (cols : Cols) (fiks_id : Nat) (page_title : String)
    (dl : String → String → String) :
    List RowHtml → List (String × String × String × String) → Except Unit (List Match)
  | [], _ => .ok []
  | r :: rs, seen =>
    match buildRow cols fiks_id page_title dl r with
    | .error e => .error e
    | .ok none => parseRows cols fiks_id page_title dl rs seen
    | .ok (some m) =>
      if keyOf m ∈ seen then parseRows cols fiks_id page_title dl rs seen
      else
        match parseRows cols fiks_id page_title dl rs (keyOf m :: seen) with
        | .error e => .error e
        | .ok ms => .ok (m :: ms)

/-- Model of parse_matches_from_page on an already fetched page.  An error
models an uncaught exception escaping the row loop. -/
def parse_matches_from_page (page : PageHtml) (fiks_id : Nat)
    (dl : String → String → String) : Except Unit (String × List Match) :=
  let page_title :=
    match page.h1 with
    | some t => normalize_space t
    | none => "2026"
  match find_matches_table page.tables with
  | none => .ok (page_title, [])
  | some table =>
    match parseRows (colsOf table.ths) fiks_id page_title dl table.trs [] with
    | .error e => .error e
    | .ok ms => .ok (page_title, ms)

/-! ### fetch_team and main -/

structure TeamCfg where
  fiksId : Nat
  teamName : String
deriving DecidableEq, Repr

structure TeamData where
  fiksId : Nat
  teamName : String
  tournament : String
  «matches» : List Match
deriving DecidableEq, Repr

/-- Kickoff order used by every sort in the program (Python sorts the ISO
strings; string order equals code point order on both sides). -/
def kickoffLE (a b : Match) : Prop := strLe a.kickoff b.kickoff = true

instance : DecidableRel kickoffLE := fun a b => by
  unfold kickoffLE; infer_instance

/-- Candidate page loop of fetch_team: each entry of pages is the outcome of
fetching one candidate URL (error = the fetch raised).  A parse exception is
swallowed by the try block and the next candidate is used; the first page
yielding a nonempty match list wins. -/
def fetchLoop (fiks_id : Nat) (dl : String → String → String) :
    List (Except Unit PageHtml) → String → String × List Match
  | [], last_title => (last_title, [])
  | p :: ps, last_title =>
    match p with
    | .error _ => fetchLoop fiks_id dl ps last_title
    | .ok page =>
      match parse_matches_from_page page fiks_id dl with
      | .error _ => fetchLoop fiks_id dl ps last_title
      | .ok (title, ms) =>
        let lt := if title ≠ "" then title else last_title
        if ms.isEmpty then fetchLoop fiks_id dl ps lt else (lt, ms)

/-- Lazy-group model of re.search(caret (.*?) ws* hyphen ws* 2026, title):
shortest prefix (not crossing a newline) whose remainder starts with optional
whitespace, a hyphen, optional whitespace, 2026. -/
def badgeTailMatch (cs : List Char) : Bool :=
  match cs.dropWhile isWs with
  | '-' :: r => "2026".toList.isPrefixOf (r.dropWhile isWs)
  | _ => false

def badgeSearch (pre : List Char) : List Char → Option (List Char)
  | [] => none
  | c :: t =>
    if badgeTailMatch (c :: t) then some pre.reverse
    else if c = '\n' then none
    else badgeSearch (c :: pre) t

/-- Badge extraction of fetch_team (lines 463-471). -/
def badgeOf (last_title : String) : String :=
  match badgeSearch [] last_title.toList with
  | some g => String.mk (stripChars g)
  | none => "2026"

/-- Model of fetch_team: run the candidate pages, sort the winning match list
ascending by kickoff (Python list.sort is stable; insertionSort with this
total preorder is the same stable sort), and package the team dict. -/
def fetch_team (cfg : TeamCfg) (dl : String → String → String)
    (pages : List (Except Unit PageHtml)) : TeamData :=
  let r := fetchLoop cfg.fiksId dl pages "2026"
  let badge := badgeOf r.1
  { fiksId := cfg.fiksId
    teamName := cfg.teamName
    tournament := if badge ≠ "2026" then badge ++ " (2026)" else "2026"
    «matches» := List.insertionSort kickoffLE r.2 }

def TEAM_CONFIG_a : TeamCfg := ⟨205403, "Fagerborg"⟩

def TEAM_CONFIG_b : TeamCfg := ⟨205410, "Fagerborg"⟩

/-- Persisted top level state: data/matches.json holds updatedAt plus the two
team datasets. -/
structure Bundle where
  updatedAt : String
  a : TeamData
  b : TeamData
deriving DecidableEq, Repr

/-- Fresh bundle built by one run of main, given the fetched candidate pages
of both teams, the logo download function, and the run timestamp. -/
def main_run (dl : String → String → String)
    (pagesA pagesB : List (Except Unit PageHtml)) (nowStr : String) : Bundle :=
  { updatedAt := nowStr
    a := fetch_team TEAM_CONFIG_a dl pagesA
    b := fetch_team TEAM_CONFIG_b dl pagesB }

/-- Combined sequence handed to the all.ics encoder. -/
def all_matches (bu : Bundle) : List Match :=
  List.insertionSort kickoffLE (bu.a.«matches» ++ bu.b.«matches»)

/-- State of data/matches.json after a run that starts from the persisted
bundle prev: main writes the fresh bundle unconditionally (write_file at line
610), never consulting prev. -/
def persisted_after_run (_prev : Bundle) (dl : String → String → String)
    (pagesA pagesB : List (Except Unit PageHtml)) (nowStr : String) : Bundle :=
  main_run dl pagesA pagesB nowStr

/-! ### ICS encoder

build_ics reads the wall clock twice in Python: once at entry for DTSTAMP
(datetime.now with microseconds stripped) and once inside ics_dt for each
record whose kickoff string is empty.  Both reads are explicit parameters
here: nowStamp is the encoder invocation instant, nowFallback the value the
inner clock read would produce.  All instants are UTC at second precision. -/

structure DT where
  y : Nat
  mo : Nat
  d : Nat
  hh : Nat
  mi : Nat
  ss : Nat
deriving DecidableEq, Repr

/-- Model of ics_escape: backslash, semicolon, comma and newline are escaped.
The four sequential str.replace calls amount to this character map because the
later single-character patterns never match the backslashes introduced by the
first replacement. -/
def ics_escape (s : String) : String :=
  String.mk (s.toList.flatMap fun c =>
    if c = '\\' then ['\\', '\\']
    else if c = ';' then ['\\', ';']
    else if c = ',' then ['\\', ',']
    else if c = '\n' then ['\\', 'n']
    else [c])

/-- Parse the fixed ISO-8601 Z shape to_utc_iso emits.  datetime.fromisoformat
accepts further shapes this program never produces; on anything else it raises
ValueError, modelled as none by the caller. -/
def parse_iso_z : List Char → Option DT
  | [y1, y2, y3, y4, '-', m1, m2, '-', d1, d2, 'T', h1, h2, ':', i1, i2, ':', s1, s2, 'Z'] =>
    if [y1, y2, y3, y4, m1, m2, d1, d2, h1, h2, i1, i2, s1, s2].all Char.isDigit then
      some ⟨natOfDigits [y1, y2, y3, y4], natOfDigits [m1, m2], natOfDigits [d1, d2],
        natOfDigits [h1, h2], natOfDigits [i1, i2], natOfDigits [s1, s2]⟩
    else none
  | _ => none

/-- Model of ics_dt: an empty kickoff yields the current clock value, a
parseable ISO Z string its instant, anything else a ValueError. -/
def ics_dt (nowFallback : DT) (s : String) : Except Unit DT :=
  if s = "" then .ok nowFallback
  else
    match parse_iso_z s.toList with
    | some dt => .ok dt
    | none => .error ()

def nextDate (y mo d : Nat) : Nat × Nat × Nat :=
  if d < daysInMonth y mo then (y, mo, d + 1)
  else if mo < 12 then (y, mo + 1, 1)
  else (y + 1, 1, 1)

/-- Add under 24 hours worth of minutes to an instant (enough for the fixed
2-hour event duration). -/
def addMinutesDT (dt : DT) (k : Nat) : DT :=
  let t := dt.hh * 60 + dt.mi + k
  if t < 1440 then { dt with hh := t / 60, mi := t % 60 }
  else
    let p := nextDate dt.y dt.mo dt.d
    { y := p.1, mo := p.2.1, d := p.2.2, hh := (t - 1440) / 60, mi := (t - 1440) % 60, ss := dt.ss }

/-- strftime of the fixed pattern used for DTSTAMP, DTSTART and DTEND. -/
def fmt_ics (dt : DT) : String :=
  padNum 4 dt.y ++ padNum 2 dt.mo ++ padNum 2 dt.d ++ "T" ++
    padNum 2 dt.hh ++ padNum 2 dt.mi ++ padNum 2 dt.ss ++ "Z"

/-- Model of match_status_to_ics: only CANCELLED has a native ICS value,
everything else (POSTPONED included) becomes CONFIRMED. -/
def match_status_to_ics (status : String) : String :=
  if toUpperStr status = "CANCELLED" then "CANCELLED" else "CONFIRMED"

/-- Lines of one VEVENT block (loop body of build_ics). -/
def eventLines (dtstamp_s team_key : String) (nowFallback : DT) (m : Match) :
    Except Unit (List String) :=
  let uid := m.matchId ++ "-" ++ team_key ++ "@fagerborgbk"
  match ics_dt nowFallback m.kickoff with
  | .error e => .error e
  | .ok dtstart =>
    let dtend := addMinutesDT dtstart 120
    let home := if m.homeTeam = "" then "Hjemmelag" else m.homeTeam
    let away := if m.awayTeam = "" then "Bortelag" else m.awayTeam
    let summary :=
      match m.homeGoals, m.awayGoals with
      | some hg, some ag =>
        home ++ " – " ++ away ++ " (" ++ Nat.repr hg ++ "–" ++ Nat.repr ag ++ ")"
      | _, _ => home ++ " – " ++ away
    let desc_parts :=
      (if m.tournament ≠ "" then ["Turnering: " ++ m.tournament] else []) ++
      (if m.round ≠ "" then ["Runde: " ++ m.round] else []) ++
      (if m.matchUrl ≠ "" then ["Kamp: " ++ m.matchUrl] else [])
    let description := joinWith "\n" desc_parts
    let ics_status := match_status_to_ics m.status
    let description :=
      if toUpperStr m.status = "POSTPONED" then
        (if description ≠ "" then description ++ "\n" else description) ++
          "Status: Utsatt/omberammet (detaljer på lenken over)."
      else description
    .ok
      (["BEGIN:VEVENT",
        "UID:" ++ ics_escape uid,
        "DTSTAMP:" ++ dtstamp_s,
        "DTSTART:" ++ fmt_ics dtstart,
        "DTEND:" ++ fmt_ics dtend,
        "SUMMARY:" ++ ics_escape summary,
        "DESCRIPTION:" ++ ics_escape description,
        "STATUS:" ++ ics_status] ++
        (if m.venue ≠ "" then ["LOCATION:" ++ ics_escape m.venue] else []) ++
        (if m.matchUrl ≠ "" then ["URL:" ++ ics_escape m.matchUrl] else []) ++
        ["END:VEVENT"])

/-- Event blocks of all matches in order, stopping at the first exception. -/
def eventsOf (dtstamp_s team_key : String) (nowFallback : DT) :
    List Match → Except Unit (List String)
  | [] => .ok []
  | m :: ms =>
    match eventLines dtstamp_s team_key nowFallback m with
    | .error e => .error e
    | .ok ls =>
      match eventsOf dtstamp_s team_key nowFallback ms with
      | .error e => .error e
      | .ok rest => .ok (ls ++ rest)

/-- Model of build_ics: prologue, one VEVENT per match, epilogue, CRLF line
terminators with a trailing CRLF. -/
def build_ics (calendar_name team_key : String) (ms : List Match)
    (nowStamp nowFallback : DT) : Except Unit String :=
  let dtstamp_s := fmt_ics nowStamp
  let header :=
    ["BEGIN:VCALENDAR", "VERSION:2.0", "PRODID:-//Fagerborg BK//Terminliste 2026//NO",
     "CALSCALE:GREGORIAN", "METHOD:PUBLISH",
     "X-WR-CALNAME:" ++ ics_escape calendar_name, "X-WR-TIMEZONE:UTC"]
  match eventsOf dtstamp_s team_key nowFallback ms with
  | .error e => .error e
  | .ok evs => .ok (joinWith "\r\n" (header ++ evs ++ ["END:VCALENDAR"]) ++ "\r\n")

/-! ### Spec-side definitions used for comparison -/

/-- Status priority as the code actually implements it, written in the layered
form of the amended claim: a parsed score first, then the cancellation
keyword, then the postponement keywords, else scheduled. -/
def status_priority_spec (res : String) : String :=
  if (searchScore res.toList).isSome then "FINISHED"
  else if containsSub "avly" (toLowerStr res) then "CANCELLED"
  else if containsSub "utsatt" (toLowerStr res) || containsSub "omberam" (toLowerStr res) then
    "POSTPONED"
  else "SCHEDULED"

/-! ### Concrete fixtures used by witnesses and counterexamples -/

/-- Logo download stub: every download resolves to the placeholder, as
download_logo does whenever fetching fails. -/
def dlFix : String → String → String := fun _ _ => "assets/logos/placeholder.svg"

/-- Header row of a fotball.no terminliste table. -/
def thsFix : List String :=
  ["Runde", "Dato", "Tid", "Hjemmelag", "Resultat", "Bortelag", "Bane"]

def rowEx : RowHtml :=
  { cells := [⟨"1", none⟩, ⟨"12.04.2026", none⟩, ⟨"18:30", none⟩,
      ⟨"Fagerborg", some "/x/logo1.png"⟩, ⟨"2 - 1", none⟩, ⟨"Ready", some "/x/logo2.png"⟩,
      ⟨"Voldsløkka", none⟩],
    href := some "/fotballdata/kamp/?fiksId=8975343" }

def pageEx : PageHtml :=
  ⟨some "Fagerborg - 2026 - Norges Fotballforbund", [⟨thsFix, [⟨[], none⟩, rowEx]⟩]⟩

/-- The record pageEx parses to. -/
def mEx : Match :=
  { matchId := "8975343", kickoff := "2026-04-12T16:30:00Z", homeTeam := "Fagerborg",
    awayTeam := "Ready", homeLogoUrl := "assets/logos/placeholder.svg",
    awayLogoUrl := "assets/logos/placeholder.svg", venue := "Voldsløkka", status := "FINISHED",
    homeGoals := some 2, awayGoals := some 1, tournament := "Fagerborg - 2026",
    round := "Runde 1", matchUrl := "https://www.fotball.no/fotballdata/kamp/?fiksId=8975343" }

/-- Same fixture and fiksId as rowEx but behind a different detail URL. -/
def rowEx2 : RowHtml :=
  { cells := [⟨"1", none⟩, ⟨"12.04.2026", none⟩, ⟨"18:30", none⟩, ⟨"Fagerborg", none⟩,
      ⟨"2 - 1", none⟩, ⟨"Ready", none⟩, ⟨"Voldsløkka", none⟩],
    href := some "/fotballdata/kamp/?x=1&fiksId=8975343" }

def pageEx2 : PageHtml := ⟨some "T", [⟨thsFix, [⟨[], none⟩, rowEx2]⟩]⟩

/-- A row mentioning Fagerborg in neither team name and carrying no detail
link (so its id takes the hash fallback). -/
def rowOther : RowHtml :=
  { cells := [⟨"2", none⟩, ⟨"01.06.2026", none⟩, ⟨"19:00", none⟩, ⟨"Lyn", none⟩, ⟨"-", none⟩,
      ⟨"Skeid", none⟩, ⟨"Bislett", none⟩],
    href := none }

def pageOther : PageHtml :=
  ⟨some "Oslo 3. divisjon - 2026 - Norges Fotballforbund", [⟨thsFix, [⟨[], none⟩, rowOther]⟩]⟩

/-- The record pageOther parses to; its matchId is the sha1 fallback over
kickoff, team names and the fiksId salt. -/
def mOther : Match :=
  { matchId := "b35731328c", kickoff := "2026-06-01T17:00:00Z", homeTeam := "Lyn",
    awayTeam := "Skeid", homeLogoUrl := "assets/logos/placeholder.svg",
    awayLogoUrl := "assets/logos/placeholder.svg", venue := "Bislett", status := "SCHEDULED",
    homeGoals := none, awayGoals := none, tournament := "Oslo 3. divisjon - 2026",
    round := "Runde 2", matchUrl := "" }

/-- Two rows sharing one detail link (hence one site match id) on different
dates, as happens when a fixture is listed twice around a rescheduling. -/
def rowDup1 : RowHtml :=
  { cells := [⟨"1", none⟩, ⟨"01.06.2026", none⟩, ⟨"18:00", none⟩, ⟨"Lyn", none⟩, ⟨"-", none⟩,
      ⟨"Skeid", none⟩, ⟨"Bislett", none⟩],
    href := some "/fotballdata/kamp/?fiksId=111" }

def rowDup2 : RowHtml :=
  { cells := [⟨"2", none⟩, ⟨"02.06.2026", none⟩, ⟨"18:00", none⟩, ⟨"Lyn", none⟩, ⟨"-", none⟩,
      ⟨"Skeid", none⟩, ⟨"Bislett", none⟩],
    href := some "/fotballdata/kamp/?fiksId=111" }

def pageDup : PageHtml :=
  ⟨some "Oslo 3. divisjon - 2026", [⟨thsFix, [⟨[], none⟩, rowDup1, rowDup2]⟩]⟩

def mDup1 : Match :=
  { matchId := "111", kickoff := "2026-06-01T16:00:00Z", homeTeam := "Lyn", awayTeam := "Skeid",
    homeLogoUrl := "assets/logos/placeholder.svg", awayLogoUrl := "assets/logos/placeholder.svg",
    venue := "Bislett", status := "SCHEDULED", homeGoals := none, awayGoals := none,
    tournament := "Oslo 3. divisjon - 2026", round := "Runde 1",
    matchUrl := "https://www.fotball.no/fotballdata/kamp/?fiksId=111" }

def mDup2 : Match :=
  { matchId := "111", kickoff := "2026-06-02T16:00:00Z", homeTeam := "Lyn", awayTeam := "Skeid",
    homeLogoUrl := "assets/logos/placeholder.svg", awayLogoUrl := "assets/logos/placeholder.svg",
    venue := "Bislett", status := "SCHEDULED", homeGoals := none, awayGoals := none,
    tournament := "Oslo 3. divisjon - 2026", round := "Runde 2",
    matchUrl := "https://www.fotball.no/fotballdata/kamp/?fiksId=111" }

/-- A result cell containing both a cancellation keyword and a score. -/
def rowAvl : RowHtml :=
  { cells := [⟨"3", none⟩, ⟨"05.06.2026", none⟩, ⟨"18:00", none⟩, ⟨"Lyn", none⟩,
      ⟨"Avlyst 2 - 1", none⟩, ⟨"Skeid", none⟩, ⟨"Bislett", none⟩],
    href := some "/fotballdata/kamp/?fiksId=222" }

def pageAvl : PageHtml := ⟨some "T", [⟨thsFix, [⟨[], none⟩, rowAvl]⟩]⟩

/-- A row carrying the 02.59 unknown-time placeholder. -/
def rowSent : RowHtml :=
  { cells := [⟨"4", none⟩, ⟨"12.04.2026", none⟩, ⟨"02.59", none⟩, ⟨"Lyn", none⟩, ⟨"-", none⟩,
      ⟨"Skeid", none⟩, ⟨"Bislett", none⟩],
    href := some "/fotballdata/kamp/?fiksId=333" }

def pageSent : PageHtml := ⟨some "T", [⟨thsFix, [⟨[], none⟩, rowSent]⟩]⟩

/-- A shape-valid but impossible date (February 31st) after one good row. -/
def rowGood : RowHtml :=
  { cells := [⟨"1", none⟩, ⟨"01.06.2026", none⟩, ⟨"18:00", none⟩, ⟨"Lyn", none⟩, ⟨"-", none⟩,
      ⟨"Skeid", none⟩, ⟨"Bislett", none⟩],
    href := some "/fotballdata/kamp/?fiksId=444" }

def rowBadDate : RowHtml :=
  { cells := [⟨"2", none⟩, ⟨"31.02.2026", none⟩, ⟨"18:00", none⟩, ⟨"Lyn", none⟩, ⟨"-", none⟩,
      ⟨"Skeid", none⟩, ⟨"Bislett", none⟩],
    href := some "/fotballdata/kamp/?fiksId=445" }

def pageBadDate : PageHtml := ⟨some "T", [⟨thsFix, [⟨[], none⟩, rowGood, rowBadDate]⟩]⟩

/-- A previously persisted bundle holding one valid match for team a. -/
def prevBundle : Bundle :=
  { updatedAt := "2026-01-01 00:00 UTC"
    a := { fiksId := 205403, teamName := "Fagerborg", tournament := "2026", «matches» := [mEx] }
    b := { fiksId := 205410, teamName := "Fagerborg", tournament := "2026", «matches» := [] } }

/-! ### Order lemmas for the kickoff sort -/

theorem lexLe_cons (a b : Char) (as bs : List Char) :
    lexLe (a :: as) (b :: bs) = true ↔
      a.toNat < b.toNat ∨ (a.toNat = b.toNat ∧ lexLe as bs = true) := by
  simp only [lexLe]
  by_cases h1 : a.toNat < b.toNat
  · simp [h1]
  · by_cases h2 : b.toNat < a.toNat
    · simp only [if_neg h1, if_pos h2]
      constructor
      · intro hc
        exact absurd hc (by simp)
      · rintro (hc | ⟨hc, -⟩) <;> omega
    · simp only [if_neg h1, if_neg h2]
      constructor
      · intro hc
        exact Or.inr ⟨by omega, hc⟩
      · rintro (hc | ⟨-, hc⟩)
        · omega
        · exact hc

theorem lexLe_total : ∀ as bs : List Char, lexLe as bs = true ∨ lexLe bs as = true
  | [], _ => Or.inl rfl
  | _ :: _, [] => Or.inr rfl
  | a :: as, b :: bs => by
    rw [lexLe_cons, lexLe_cons]
    rcases Nat.lt_trichotomy a.toNat b.toNat with h | h | h
    · exact Or.inl (Or.inl h)
    · rcases lexLe_total as bs with ih | ih
      · exact Or.inl (Or.inr ⟨h, ih⟩)
      · exact Or.inr (Or.inr ⟨h.symm, ih⟩)
    · exact Or.inr (Or.inl h)

theorem lexLe_trans : ∀ as bs cs : List Char,
    lexLe as bs = true → lexLe bs cs = true → lexLe as cs = true
  | [], _, _, _, _ => rfl
  | _ :: _, [], _, h, _ => by simp [lexLe] at h
  | _ :: _, _ :: _, [], _, h2 => by simp [lexLe] at h2
  | a :: as, b :: bs, c :: cs, h, h2 => by
    rw [lexLe_cons] at h h2 ⊢
    rcases h with h | ⟨hab, h⟩
    · rcases h2 with h2 | ⟨hbc, h2⟩
      · exact Or.inl (by omega)
      · exact Or.inl (by omega)
    · rcases h2 with h2 | ⟨hbc, h2⟩
      · exact Or.inl (by omega)
      · exact Or.inr ⟨by omega, lexLe_trans as bs cs h h2⟩

instance : IsTotal Match kickoffLE :=
  ⟨fun a b => by
    unfold kickoffLE strLe
    exact lexLe_total a.kickoff.toList b.kickoff.toList⟩

instance : IsTrans Match kickoffLE :=
  ⟨fun a b c h h2 => by
    unfold kickoffLE strLe at h h2 ⊢
    exact lexLe_trans a.kickoff.toList b.kickoff.toList c.kickoff.toList h h2⟩

/-! ### Builder and parse lemmas -/

/-- Shape of a successfully built record: its goal fields and status come from
one application of the status derivation block, and its matchId from the
link-or-hash identity rule applied to its own kickoff and team names. -/
theorem buildRow_ok (cols : Cols) (fi : Nat) (title : String)
    (dl : String → String → String) (row : RowHtml) (m : Match)
    (h : buildRow cols fi title dl row = .ok (some m)) :
    (∃ res : String,
      m.homeGoals = (derive_status_goals res).1 ∧
      m.awayGoals = (derive_status_goals res).2.1 ∧
      m.status = (derive_status_goals res).2.2) ∧
    m.matchId = rowMatchId row m.kickoff m.homeTeam m.awayTeam fi := by
  simp only [buildRow] at h
  split at h
  · simp at h
  split at h
  case _ i_date i_home i_away _ =>
    split at h
    · simp at h
    split at h
    · simp at h
    split at h
    · simp at h
    · simp at h
    case _ d _ =>
      split at h
      · simp at h
      simp only [Except.ok.injEq, Option.some.injEq] at h
      subst h
      constructor
      · exact ⟨_, rfl, rfl, rfl⟩
      · rfl
  · simp at h

/-- Every record emitted by the row loop comes from one successful builder run
on one of the rows. -/
theorem parseRows_mem (cols : Cols) (fi : Nat) (title : String)
    (dl : String → String → String) :
    ∀ (rows : List RowHtml) (seen : List (String × String × String × String))
      (ms : List Match), parseRows cols fi title dl rows seen = .ok ms →
      ∀ m ∈ ms, ∃ row ∈ rows, buildRow cols fi title dl row = .ok (some m)
  | [], _, ms, h => by
    simp only [parseRows, Except.ok.injEq] at h
    subst h
    intro m hm
    simp at hm
  | r :: rs, seen, ms, h => by
    simp only [parseRows] at h
    split at h
    · exact absurd h (by simp)
    case _ hb =>
      intro m hm
      rcases parseRows_mem cols fi title dl rs seen ms h m hm with ⟨row, hrow, hbr⟩
      exact ⟨row, List.mem_cons_of_mem _ hrow, hbr⟩
    case _ m' hb =>
      split at h
      · intro m hm
        rcases parseRows_mem cols fi title dl rs seen ms h m hm with ⟨row, hrow, hbr⟩
        exact ⟨row, List.mem_cons_of_mem _ hrow, hbr⟩
      · split at h
        · exact absurd h (by simp)
        case _ ms' hrec =>
          simp only [Except.ok.injEq] at h
          subst h
          intro m hm
          rcases List.mem_cons.mp hm with rfl | hm2
          · exact ⟨r, List.mem_cons_self r rs, hb⟩
          · rcases parseRows_mem cols fi title dl rs _ ms' hrec m hm2 with ⟨row, hrow, hbr⟩
            exact ⟨row, List.mem_cons_of_mem _ hrow, hbr⟩

/-- The seen-set dedup guarantees that the emitted records carry pairwise
distinct (matchId, kickoff, homeTeam, awayTeam) keys, none of them in the
initial seen set. -/
theorem parseRows_nodup (cols : Cols) (fi : Nat) (title : String)
    (dl : String → String → String) :
    ∀ (rows : List RowHtml) (seen : List (String × String × String × String))
      (ms : List Match), parseRows cols fi title dl rows seen = .ok ms →
      (∀ m ∈ ms, keyOf m ∉ seen) ∧ (ms.map keyOf).Nodup
  | [], _, ms, h => by
    simp only [parseRows, Except.ok.injEq] at h
    subst h
    simp
  | r :: rs, seen, ms, h => by
    simp only [parseRows] at h
    split at h
    · exact absurd h (by simp)
    · exact parseRows_nodup cols fi title dl rs seen ms h
    case _ m' hb =>
      split at h
      · exact parseRows_nodup cols fi title dl rs seen ms h
      case _ hseen =>
        split at h
        · exact absurd h (by simp)
        case _ ms' hrec =>
          simp only [Except.ok.injEq] at h
          subst h
          rcases parseRows_nodup cols fi title dl rs _ ms' hrec with ⟨hnotin, hnd⟩
          have hnotin2 : ∀ m ∈ ms', keyOf m ∉ seen := by
            intro m hm hmem
            exact hnotin m hm (List.mem_cons_of_mem _ hmem)
          have hne : ∀ m ∈ ms', keyOf m ≠ keyOf m' := by
            intro m hm heq
            exact hnotin m hm (heq ▸ List.mem_cons_self _ _)
          refine ⟨?_, ?_⟩
          · intro m hm
            rcases List.mem_cons.mp hm with rfl | hm2
            · exact hseen
            · exact hnotin2 m hm2
          · simp only [List.map_cons, List.nodup_cons]
            refine ⟨?_, hnd⟩
            intro hc
            rcases List.mem_map.mp hc with ⟨m, hm, heq⟩
            exact hne m hm heq

/-- Lift of the two row-loop lemmas through parse_matches_from_page. -/
theorem parse_mem (page : PageHtml) (fi : Nat) (dl : String → String → String)
    (t : String) (ms : List Match)
    (h : parse_matches_from_page page fi dl = .ok (t, ms)) :
    (∀ m ∈ ms, ∃ cols title row, buildRow cols fi title dl row = .ok (some m)) ∧
    (ms.map keyOf).Nodup := by
  simp only [parse_matches_from_page] at h
  split at h
  · simp only [Except.ok.injEq, Prod.mk.injEq] at h
    rcases h with ⟨-, h2⟩
    subst h2
    exact ⟨by simp, by simp⟩
  case _ table _ =>
    split at h
    · exact absurd h (by simp)
    case _ ms' hrows =>
      simp only [Except.ok.injEq, Prod.mk.injEq] at h
      rcases h with ⟨-, h2⟩
      subst h2
      refine ⟨?_, (parseRows_nodup _ _ _ _ _ _ _ hrows).2⟩
      intro m hm
      rcases parseRows_mem _ _ _ _ _ _ _ hrows m hm with ⟨row, -, hbr⟩
      exact ⟨_, _, row, hbr⟩

/-- The match list returned by the candidate page loop is empty or the list of
one successful page parse. -/
theorem fetchLoop_sound (fi : Nat) (dl : String → String → String) :
    ∀ (pages : List (Except Unit PageHtml)) (lt : String),
      (fetchLoop fi dl pages lt).2 = [] ∨
      ∃ page t, parse_matches_from_page page fi dl = .ok (t, (fetchLoop fi dl pages lt).2)
  | [], _ => Or.inl rfl
  | p :: ps, lt => by
    cases p with
    | error e => exact fetchLoop_sound fi dl ps lt
    | ok page =>
      cases hp : parse_matches_from_page page fi dl with
      | error e =>
        simp only [fetchLoop, hp]
        exact fetchLoop_sound fi dl ps lt
      | ok r =>
        obtain ⟨title, ms⟩ := r
        by_cases hms : ms.isEmpty = true
        · simp only [fetchLoop, hp, hms, if_true]
          exact fetchLoop_sound fi dl ps _
        · simp only [fetchLoop, hp, hms, if_false]
          exact Or.inr ⟨page, title, hp⟩

/-- Goal and status fields of the derivation block: FINISHED exactly when a
score was parsed, and the two goal fields always come together. -/
theorem derive_status_goals_spec (res : String) :
    ((derive_status_goals res).2.2 = "FINISHED" ↔
      (derive_status_goals res).1 ≠ none ∧ (derive_status_goals res).2.1 ≠ none) ∧
    ((derive_status_goals res).1 = none ↔ (derive_status_goals res).2.1 = none) := by
  cases hs : searchScore res.data with
  | some p =>
    obtain ⟨hg, ag⟩ := p
    simp [derive_status_goals, String.toList, hs]
  | none =>
    simp only [derive_status_goals, String.toList, hs]
    split
    · decide
    split
    · decide
    · decide

/-- The VEVENT block of a record with a nonempty kickoff does not depend on
the inner clock read of ics_dt. -/
theorem eventLines_fallback_irrelevant (dtstamp_s team_key : String) (fb1 fb2 : DT)
    (m : Match) (h : m.kickoff ≠ "") :
    eventLines dtstamp_s team_key fb1 m = eventLines dtstamp_s team_key fb2 m := by
  unfold eventLines ics_dt
  rw [if_neg h, if_neg h]

/-- VEVENT blocks of a whole list are unaffected by the inner clock read when
every kickoff is nonempty. -/
theorem eventsOf_fallback_irrelevant (d k : String) (fb1 fb2 : DT) :
    ∀ ms : List Match, (∀ m ∈ ms, m.kickoff ≠ "") →
      eventsOf d k fb1 ms = eventsOf d k fb2 ms
  | [], _ => rfl
  | m :: rest, h => by
    unfold eventsOf
    rw [eventLines_fallback_irrelevant d k fb1 fb2 m (h m (List.mem_cons_self m rest)),
      eventsOf_fallback_irrelevant d k fb1 fb2 rest fun x hx => h x (List.mem_cons_of_mem _ hx)]

/-! ### Claims -/

/-- C1 (counterexample): with a persisted bundle holding one valid match for
team a and a fresh run whose fetches for team a all fail (zero fresh matches),
the dataset persisted after the run is not the previous one: the fresh empty
bundle overwrites it. -/
theorem validation_guard_counterexample :
    prevBundle.a.«matches» ≠ [] ∧
    (fetch_team TEAM_CONFIG_a dlFix [.error (), .error ()]).«matches» = [] ∧
    persisted_after_run prevBundle dlFix [.error (), .error ()] [.error (), .error ()]
      "2026-02-01 00:00 UTC" ≠ prevBundle ∧
    (persisted_after_run prevBundle dlFix [.error (), .error ()] [.error (), .error ()]
      "2026-02-01 00:00 UTC").a.«matches» = [] :=
  ⟨by decide, by decide, by decide, by decide⟩

/-- C1 (amended): there is no validation guard.  main persists the freshly
built bundle unconditionally, never consulting the previous one; in
particular, when the fresh parse yields zero matches for a tracked team, the
persisted dataset for that team is the fresh empty one, not the previous
nonempty one. -/
theorem validation_guard_absent :
    ∀ (prev : Bundle) (dl : String → String → String)
      (pagesA pagesB : List (Except Unit PageHtml)) (nowStr : String),
      persisted_after_run prev dl pagesA pagesB nowStr = main_run dl pagesA pagesB nowStr ∧
      ((fetch_team TEAM_CONFIG_a dl pagesA).«matches» = [] →
        (persisted_after_run prev dl pagesA pagesB nowStr).a.«matches» = []) :=
  fun _ _ _ _ _ => ⟨rfl, fun h => h⟩

/-- C1 (witness): the amended theorem applied to the concrete failing-fetch
run. -/
theorem validation_guard_absent_witness :
    persisted_after_run prevBundle dlFix [.error (), .error ()] [.error (), .error ()] "t" =
      main_run dlFix [.error (), .error ()] [.error (), .error ()] "t" ∧
    (persisted_after_run prevBundle dlFix [.error (), .error ()] [.error (), .error ()]
      "t").a.«matches» = [] :=
  ⟨(validation_guard_absent prevBundle dlFix [.error (), .error ()] [.error (), .error ()] "t").1,
   (validation_guard_absent prevBundle dlFix [.error (), .error ()] [.error (), .error ()] "t").2
     (by decide)⟩

/-- C2 (counterexample): a record naming the tracked club (Fagerborg) in
neither team name is kept in the team dataset, so the claimed club-name filter
does not exist. -/
theorem team_scope_filter_counterexample :
    TEAM_CONFIG_a.teamName = "Fagerborg" ∧
    (fetch_team TEAM_CONFIG_a dlFix [.ok pageOther, .error ()]).«matches» = [mOther] ∧
    containsSub "fagerborg" (toLowerStr mOther.homeTeam) = false ∧
    containsSub "fagerborg" (toLowerStr mOther.awayTeam) = false :=
  ⟨rfl, by decide, by decide, by decide⟩

/-- C2 (amended): no team-scope filter is applied.  The team dataset keeps
exactly the records parsed from the winning candidate page (up to the kickoff
sort), and the kept records are independent of the configured club name. -/
theorem team_scope_filter_not_applied :
    ∀ (cfg : TeamCfg) (dl : String → String → String)
      (pages : List (Except Unit PageHtml)),
      ((fetch_team cfg dl pages).«matches»).Perm ((fetchLoop cfg.fiksId dl pages "2026").2) ∧
      ∀ name2 : String,
        (fetch_team ⟨cfg.fiksId, name2⟩ dl pages).«matches» =
          (fetch_team cfg dl pages).«matches» :=
  fun _ _ _ => ⟨List.perm_insertionSort kickoffLE _, fun _ => rfl⟩

/-- C3 (counterexample): a result cell reading Avlyst 2 - 1 carries the
cancellation keyword, yet the derived status is FINISHED with goals parsed:
the score wins over the keyword, contradicting the claimed priority. -/
theorem status_priority_counterexample :
    containsSub "avly" (toLowerStr "Avlyst 2 - 1") = true ∧
    derive_status_goals "Avlyst 2 - 1" = (some 2, some 1, "FINISHED") ∧
    (parse_matches_from_page pageAvl 205403 dlFix).map (fun p => p.2.map Match.status) =
      .ok ["FINISHED"] :=
  ⟨by decide, by decide, by decide⟩

/-- C3 (amended): the implemented priority order is (1) both goal counts
parsed, FINISHED; (2) else cancellation keyword, CANCELLED; (3) else
postponement keyword, POSTPONED; (4) else SCHEDULED.  A parsed score takes
precedence over a cancellation keyword, not the other way round. -/
theorem status_priority_amended_correct :
    ∀ res : String, (derive_status_goals res).2.2 = status_priority_spec res := by
  intro res
  cases hs : searchScore res.data with
  | some p =>
    obtain ⟨hg, ag⟩ := p
    simp [derive_status_goals, status_priority_spec, String.toList, hs]
  | none =>
    simp only [derive_status_goals, status_priority_spec, String.toList, hs,
      Option.isSome_none, Bool.false_eq_true, if_false]
    split
    · rfl
    split
    · rfl
    · rfl

/-- C4 (counterexample): for a row with a usable detail link, matchId is the
fiksId query parameter of that link, not a content hash of the URL: two
different URLs naming the same fiksId yield the same matchId, and the id
differs from the short sha1 the program uses as its content hash. -/
theorem match_identity_counterexample :
    (parse_matches_from_page pageEx 205403 dlFix).map
        (fun p => p.2.map fun m => (m.matchId, m.matchUrl)) =
      .ok [("8975343", "https://www.fotball.no/fotballdata/kamp/?fiksId=8975343")] ∧
    (parse_matches_from_page pageEx2 205403 dlFix).map
        (fun p => p.2.map fun m => (m.matchId, m.matchUrl)) =
      .ok [("8975343", "https://www.fotball.no/fotballdata/kamp/?x=1&fiksId=8975343")] ∧
    sha1Hex10 "https://www.fotball.no/fotballdata/kamp/?fiksId=8975343" = "174b9b32a6" ∧
    sha1Hex10 "https://www.fotball.no/fotballdata/kamp/?x=1&fiksId=8975343" ≠ "8975343" ∧
    ("8975343" : String) ≠ "174b9b32a6" :=
  ⟨by decide, by decide, by decide, by decide, by decide⟩

/-- C4 (amended): if a usable detail link exists, matchId is the fiksId query
parameter of that link (falling back to the hash only when the query value is
missing); without a usable link, matchId is the first 10 hex digits of the
sha1 of (kickoff, homeTeam, awayTeam) salted with the scope fiksId, hence
identical across runs on the same fixture. -/
theorem match_identity_amended :
    ∀ (cols : Cols) (fi : Nat) (title : String) (dl : String → String → String)
      (row : RowHtml) (m : Match),
      buildRow cols fi title dl row = .ok (some m) →
      (∀ full, usableLink row = some full →
        (∃ fid, match_id_from_url full = some fid ∧ m.matchId = fid) ∨
        (match_id_from_url full = none ∧
          m.matchId =
            sha1Hex10 (m.kickoff ++ "|" ++ m.homeTeam ++ "|" ++ m.awayTeam ++ "|" ++
              Nat.repr fi))) ∧
      (usableLink row = none →
        m.matchId =
          sha1Hex10 (m.kickoff ++ "|" ++ m.homeTeam ++ "|" ++ m.awayTeam ++ "|" ++
            Nat.repr fi)) := by
  intro cols fi title dl row m h
  have hid := (buildRow_ok cols fi title dl row m h).2
  constructor
  · intro full hfull
    rw [hid]
    cases hm : match_id_from_url full with
    | none =>
      exact Or.inr ⟨rfl, by simp [rowMatchId, rowLink, hfull, hm]⟩
    | some fid =>
      exact Or.inl ⟨fid, rfl, by simp [rowMatchId, rowLink, hfull, hm]⟩
  · intro hnone
    rw [hid]
    simp [rowMatchId, rowLink, hnone]

/-- C4 (witness): the amended theorem applied to a concrete linkless row,
whose id takes the hash fallback. -/
theorem match_identity_amended_witness :
    mOther.matchId =
      sha1Hex10 (mOther.kickoff ++ "|" ++ mOther.homeTeam ++ "|" ++ mOther.awayTeam ++ "|" ++
        Nat.repr 205403) :=
  (match_identity_amended (colsOf thsFix) 205403
      "Oslo 3. divisjon - 2026 - Norges Fotballforbund" dlFix rowOther mOther (by decide)).2
    (by decide)

/-- C5: for every record produced by the page parser, status is FINISHED
exactly when both goal fields are present, and the two goal fields are either
both present or both absent. -/
theorem finished_iff_goals_present :
    ∀ (page : PageHtml) (fi : Nat) (dl : String → String → String) (t : String)
      (ms : List Match) (m : Match),
      parse_matches_from_page page fi dl = .ok (t, ms) → m ∈ ms →
      ((m.status = "FINISHED" ↔ m.homeGoals ≠ none ∧ m.awayGoals ≠ none) ∧
        (m.homeGoals = none ↔ m.awayGoals = none)) := by
  intro page fi dl t ms m hp hm
  rcases (parse_mem page fi dl t ms hp).1 m hm with ⟨cols, title, row, hb⟩
  rcases (buildRow_ok cols fi title dl row m hb).1 with ⟨res, h1, h2, h3⟩
  rw [h1, h2, h3]
  exact derive_status_goals_spec res

/-- C5 (witness): the invariant instantiated at the concrete finished
fixture. -/
theorem finished_iff_goals_present_witness :
    (mEx.status = "FINISHED" ↔ mEx.homeGoals ≠ none ∧ mEx.awayGoals ≠ none) ∧
    (mEx.homeGoals = none ↔ mEx.awayGoals = none) :=
  finished_iff_goals_present pageEx 205403 dlFix "Fagerborg - 2026 - Norges Fotballforbund"
    [mEx] mEx (by decide) (by decide)

/-- C6: a raw time cell that parses to exactly 02:59 (dotted form included) is
the unknown-time placeholder: the normalizer returns midnight with the unknown
flag set, and the builder therefore stamps the record with the UTC conversion
of local midnight of the row date. -/
theorem unknown_time_sentinel :
    (∀ raw : String,
      timeShape ((normalize_space raw).toList.map fun c => if c = '.' then ':' else c) =
        some (2, 59) →
      parse_time_cell raw = (some 0, some 0, true)) ∧
    parse_time_cell "02.59" = (some 0, some 0, true) ∧
    (parse_matches_from_page pageSent 205403 dlFix).map (fun p => p.2.map Match.kickoff) =
      .ok [to_utc_iso 2026 4 12 0 0] ∧
    to_utc_iso 2026 4 12 0 0 = "2026-04-11T22:00:00Z" := by
  refine ⟨?_, by decide, by decide, by decide⟩
  intro raw h
  simp only [parse_time_cell]
  rw [h]
  rfl

/-- C6 (witness): the sentinel rule applied to the dotted placeholder text. -/
theorem unknown_time_sentinel_witness :
    parse_time_cell "02.59" = (some 0, some 0, true) :=
  unknown_time_sentinel.1 "02.59" (by decide)

/-- C7 (counterexample): two rows sharing one detail link but differing in
date survive the four-tuple dedup, so one emitted dataset carries two distinct
records with the same matchId. -/
theorem matchid_uniqueness_counterexample :
    (fetch_team TEAM_CONFIG_a dlFix [.ok pageDup, .error ()]).«matches» = [mDup1, mDup2] ∧
    mDup1.matchId = mDup2.matchId ∧
    mDup1 ≠ mDup2 :=
  ⟨by decide, rfl, by decide⟩

/-- C7 (amended): the within-parse dedup guarantees uniqueness of the full
tuple (matchId, kickoff, homeTeam, awayTeam) in every emitted dataset, not of
matchId alone. -/
theorem dedup_key_uniqueness :
    ∀ (cfg : TeamCfg) (dl : String → String → String)
      (pages : List (Except Unit PageHtml)),
      (((fetch_team cfg dl pages).«matches»).map keyOf).Nodup := by
  intro cfg dl pages
  have hperm : ((fetch_team cfg dl pages).«matches»).Perm
      ((fetchLoop cfg.fiksId dl pages "2026").2) :=
    List.perm_insertionSort kickoffLE _
  have hnd : (((fetchLoop cfg.fiksId dl pages "2026").2).map keyOf).Nodup := by
    rcases fetchLoop_sound cfg.fiksId dl pages "2026" with hempty | ⟨page, t, hp⟩
    · rw [hempty]; simp
    · exact (parse_mem page cfg.fiksId dl t _ hp).2
  exact ((hperm.map keyOf).nodup_iff).mpr hnd

/-- C8: the calendar text is a pure function of the records, the scope key,
the display name and the encoder invocation instant: with every kickoff
nonempty (true of every record this pipeline builds), the only other effect in
the Python body, the inner clock read of ics_dt, cannot influence the
output. -/
theorem ics_encoder_deterministic :
    ∀ (name key : String) (ms : List Match) (stamp fb1 fb2 : DT),
      (∀ m ∈ ms, m.kickoff ≠ "") →
      build_ics name key ms stamp fb1 = build_ics name key ms stamp fb2 := by
  intro name key ms stamp fb1 fb2 h
  simp only [build_ics]
  rw [eventsOf_fallback_irrelevant (fmt_ics stamp) key fb1 fb2 ms h]

/-- C8 (witness): determinism at a concrete dataset under two different inner
clock values. -/
theorem ics_encoder_deterministic_witness :
    build_ics "Fagerborg BK – A-laget (2026)" "a" [mEx] ⟨2026, 1, 2, 3, 4, 5⟩
        ⟨2026, 1, 2, 3, 4, 5⟩ =
      build_ics "Fagerborg BK – A-laget (2026)" "a" [mEx] ⟨2026, 1, 2, 3, 4, 5⟩
        ⟨2030, 6, 7, 8, 9, 10⟩ :=
  ics_encoder_deterministic "Fagerborg BK – A-laget (2026)" "a" [mEx] ⟨2026, 1, 2, 3, 4, 5⟩
    ⟨2026, 1, 2, 3, 4, 5⟩ ⟨2030, 6, 7, 8, 9, 10⟩ (by decide)

/-- C9: every team dataset is sorted ascending by kickoff when persisted and
when handed to the ICS encoder, and so is the combined all-matches
sequence. -/
theorem datasets_sorted_by_kickoff :
    (∀ (cfg : TeamCfg) (dl : String → String → String)
      (pages : List (Except Unit PageHtml)),
      List.Sorted kickoffLE (fetch_team cfg dl pages).«matches») ∧
    ∀ bu : Bundle, List.Sorted kickoffLE (all_matches bu) :=
  ⟨fun _ _ _ => List.sorted_insertionSort kickoffLE _,
   fun _ => List.sorted_insertionSort kickoffLE _⟩

/-- C10: date parsing is not total over shape-valid inputs: a dd.mm.yyyy
string naming an impossible calendar date makes parse_date_cell raise (the
datetime ValueError) instead of returning None, the exception escapes the row
loop and aborts the whole page parse, and the caller catch-all then treats the
page as empty. -/
theorem impossible_date_raises :
    (∀ (raw : String) (d mo y : Nat),
      dateShape (normalize_space raw).toList = some (d, mo, y) →
      validDate y mo d = false →
      parse_date_cell raw = .error ()) ∧
    parse_date_cell "31.02.2026" = .error () ∧
    parse_matches_from_page pageBadDate 205403 dlFix = .error () ∧
    (fetch_team TEAM_CONFIG_a dlFix [.ok pageBadDate, .error ()]).«matches» = [] := by
  refine ⟨?_, by decide, by decide, by decide⟩
  intro raw d mo y h hv
  unfold parse_date_cell
  rw [h]
  simp [hv]

/-- C10 (witness): the general exception rule applied to February 31st. -/
theorem impossible_date_raises_witness :
    parse_date_cell "31.02.2026" = .error () :=
  impossible_date_raises.1 "31.02.2026" 31 2 2026 (by decide) (by decide)

end FetchMatches
